import Mathlib

/-!
Shallow embedding of the table-resize / full-width-toggle module of
wangEditor-next's table plugin, and proofs about it.

Sources embedded:
* `column-resize.ts` (the drag handlers `onMouseDown` / `onMouseMove` /
  `onMouseUp`, the pure helpers `getCumulativeWidths`,
  `getColumnWidthRatios`, `calculateAdjacentWidths`,
  `calculateAdjacentWidthsByBorderPosition`, and `handleCellBorderVisible`);
* `menu/AlwaysFullWidth.ts` (`isFullWidthActive`, `TableAlwaysFullWidth.exec`
  and its guards).

JavaScript numbers are modelled by exact rationals `ℚ`; `Math.floor(x*100)/100`
becomes `jsFloor2`, `.toFixed(2)` becomes `jsToFixed2` (round to two decimal
places).  Editor / DOM state that the code only reads is passed in explicitly
as structure fields.
-/

namespace TableResize

/-- JS `Math.floor(x * 100) / 100` (truncation to two decimals, toward −∞). -/
def jsFloor2 (x : ℚ) : ℚ := ((⌊x * 100⌋ : ℤ) : ℚ) / 100

/-- JS `Number(x.toFixed(2))`: rounding to two decimal places
(ties modelled as round-half-up over exact rationals). -/
def jsToFixed2 (x : ℚ) : ℚ := ((round (x * 100) : ℤ) : ℚ) / 100

/-- Modelled from the spec: the helper `numberToFixed` lives in the module's
`helpers.ts`, which is not part of the provided sources; per the spec's
description of the width recompute ("that quotient rounded to two decimal
places") it rounds its argument to two decimal places (default precision 2). -/
def numberToFixed (x : ℚ) : ℚ := jsToFixed2 x

/-- JS `parseInt` applied to the decimal rendering of a number:
truncation toward zero. -/
def truncTowardZero (q : ℚ) : ℤ := if 0 ≤ q then ⌊q⌋ else ⌈q⌉

/-- A table node, as read by this module: `width` is the marker string
(`"auto"` intrinsic / `"100%"` full width), `columnWidths` one entry per
column, plus the transient hover flags. -/
structure TableElement where
  width : String
  columnWidths : List ℚ
  isHoverCellBorder : Bool
  resizingIndex : ℤ
deriving Repr, DecidableEq

/-- The slice of the host editor's state this module reads:
`selection = some c` means a selection exists and `c` is
`Range.isCollapsed(selection)`; `selectedTable` is
`DomEditor.getSelectedNodeByType(editor, 'table')`;
`insertTableMinWidth` is the `minWidth` entry of
`getMenuConfig('insertTable')` (`none` = absent or not parsable as a
number); `disabled` is `editor.isDisabled()`. -/
structure IDomEditor where
  selection : Option Bool
  selectedTable : Option TableElement
  insertTableMinWidth : Option ℚ
  disabled : Bool
deriving Repr, DecidableEq

/-- `isFullWidthActive` from `AlwaysFullWidth.ts`: the selected table node
exists and its `width` is `'100%'`. -/
def isFullWidthActive (editor : IDomEditor) : Bool :=
  match editor.selectedTable with
  | none => false
  | some t => t.width == "100%"

/-- `const { minWidth = 60 } = editor.getMenuConfig('insertTable');
parseInt(minWidth.toString(), 10) || 60`: absent, unparsable or zero
configuration yields 60. -/
def minColumnWidthOf (editor : IDomEditor) : ℤ :=
  match editor.insertTableMinWidth with
  | none => 60
  | some q =>
    let p := truncTowardZero q
    if p = 0 then 60 else p

/-- Helper for `getCumulativeWidths`: running totals starting from `total`. -/
def cumulativeFrom (total : ℚ) : List ℚ → List ℚ
  | [] => []
  | w :: rest => (total + w) :: cumulativeFrom (total + w) rest

/-- `getCumulativeWidths`: prefix sums of the column widths. -/
def getCumulativeWidths (columnWidths : List ℚ) : List ℚ :=
  cumulativeFrom 0 columnWidths

/-- `getColumnWidthRatios`: each width divided by the total width. -/
def getColumnWidthRatios (columnWidths : List ℚ) : List ℚ :=
  let totalWidth := columnWidths.sum
  columnWidths.map (fun w => w / totalWidth)

/-- `calculateAdjacentWidths`: grow/shrink the resized column by
`widthChange`, clamped below by the configured minimum, truncated to two
decimals; other columns untouched.  (The JS function performs the array
write unconditionally; for an out-of-range index the write targets a
non-element property / extends the array, which no caller exercises —
`onMouseMove` only reaches it with the node's `resizingIndex` — so the
embedding returns the list unchanged there.) -/
def calculateAdjacentWidths (columnWidths : List ℚ) (resizingIndex : ℤ)
    (widthChange : ℚ) (editor : IDomEditor) : List ℚ :=
  if 0 ≤ resizingIndex ∧ resizingIndex < (columnWidths.length : ℤ) then
    let i := resizingIndex.toNat
    let minColumnWidth : ℚ := (minColumnWidthOf editor : ℚ)
    let currentWidth := columnWidths.getD i 0
    let newWidth := max minColumnWidth (currentWidth + widthChange)
    columnWidths.set i (jsFloor2 newWidth)
  else columnWidths

/-- `calculateAdjacentWidthsByBorderPosition`: place the resized column's
right border at the mouse position.  Out-of-range `resizingIndex` returns a
copy of the input.  In non-full-width mode only the resized column changes;
in full-width mode an adjacent column (right if it exists, else left) is
compensated, unless the change is below 0.1.  `cumulativeWidths` is accessed
at `resizingIndex - 1`; every caller passes `getCumulativeWidths columnWidths`,
making the access in bounds (the embedding defaults the read to 0). -/
def calculateAdjacentWidthsByBorderPosition (columnWidths : List ℚ)
    (resizingIndex : ℤ) (mousePositionInTable : ℚ)
    (cumulativeWidths : List ℚ) (editor : IDomEditor) : List ℚ :=
  if resizingIndex < 0 ∨ (columnWidths.length : ℤ) ≤ resizingIndex then
    columnWidths
  else
    let i := resizingIndex.toNat
    let minColumnWidth : ℚ := (minColumnWidthOf editor : ℚ)
    let targetBorderPosition := mousePositionInTable
    let leftBoundary := if i = 0 then 0 else cumulativeWidths.getD (i - 1) 0
    let newColumnWidth := targetBorderPosition - leftBoundary
    let adjustedWidth := max minColumnWidth newColumnWidth
    if isFullWidthActive editor = false then
      columnWidths.set i (numberToFixed (jsFloor2 adjustedWidth))
    else
      let widthChange := adjustedWidth - columnWidths.getD i 0
      let newWidths := columnWidths.set i (numberToFixed (jsFloor2 adjustedWidth))
      if |widthChange| < 1 / 10 then newWidths
      else if 0 < widthChange then
        if i + 1 < columnWidths.length then
          newWidths.set (i + 1)
            (numberToFixed (jsFloor2
              (max minColumnWidth (columnWidths.getD (i + 1) 0 - widthChange))))
        else if 0 < i then
          newWidths.set (i - 1)
            (numberToFixed (jsFloor2
              (max minColumnWidth (columnWidths.getD (i - 1) 0 - widthChange))))
        else newWidths
      else
        if i + 1 < columnWidths.length then
          newWidths.set (i + 1)
            (numberToFixed (jsFloor2 (columnWidths.getD (i + 1) 0 - widthChange)))
        else if 0 < i then
          newWidths.set (i - 1)
            (numberToFixed (jsFloor2 (columnWidths.getD (i - 1) 0 - widthChange)))
        else newWidths

/-- The props object passed to `Transforms.setNodes` by the full-width
toggle: always a `width` marker, and on activation also new column widths
(`none` = the props did not include `columnWidths`). -/
structure TableProps where
  width : String
  columnWidths : Option (List ℚ)
deriving Repr, DecidableEq

/-- The DOM measurements `TableAlwaysFullWidth.exec` reads:
whether `.table-container` exists, whether it contains a `<table>`,
the container's `clientWidth`, the parsed horizontal paddings
(`parseInt(...) || 0` — already integers, 0 when unparsable), and the
parsed computed width of the inner table (`none` when `parseInt` yields
`NaN`). -/
structure FullWidthDomContext where
  hasContainer : Bool
  hasInnerTable : Bool
  containerClientWidth : ℚ
  containerPaddingLeft : ℤ
  containerPaddingRight : ℤ
  tablePaddingLeft : ℤ
  tablePaddingRight : ℤ
  tableStyleWidthPx : Option ℤ
deriving Repr, DecidableEq

/-- `TableAlwaysFullWidth.isDisabled`: no selection, a non-collapsed
selection, or no selected table node disables the menu. -/
def menuIsDisabled (editor : IDomEditor) : Bool :=
  match editor.selection with
  | none => true
  | some collapsed =>
    if collapsed = false then true
    else editor.selectedTable.isNone

/-- The container's available width: `clientWidth` minus horizontal padding. -/
def containerWidthOf (dom : FullWidthDomContext) : ℚ :=
  dom.containerClientWidth - (dom.containerPaddingLeft : ℚ) - (dom.containerPaddingRight : ℚ)

/-- The table's current width used as the conversion base:
`max(columnWidths.length * 60, ctWidth - paddings)` where `ctWidth` falls
back to the container width when the computed style width is `NaN`. -/
def tableCurrentWidthOf (dom : FullWidthDomContext) (n : ℕ) : ℚ :=
  let ctWidth : ℚ :=
    match dom.tableStyleWidthPx with
    | none => containerWidthOf dom
    | some w => (w : ℚ)
  max ((n : ℚ) * 60) (ctWidth - (dom.tablePaddingLeft : ℚ) - (dom.tablePaddingRight : ℚ))

/-- `TableAlwaysFullWidth.exec`.  The returned value is the props object
handed to `Transforms.setNodes` (`none` = the function returned without
any state change). -/
def exec (editor : IDomEditor) (dom : FullWidthDomContext) : Option TableProps :=
  if menuIsDisabled editor then none
  else if isFullWidthActive editor then some ⟨"auto", none⟩
  else
    match editor.selectedTable with
    | none => none
    | some tableNode =>
      let columnWidths := tableNode.columnWidths
      if dom.hasContainer = false ∨ columnWidths.length = 0 then none
      else if dom.hasInnerTable = false then none
      else
        let containerWidth := containerWidthOf dom
        let tableCurrentWidth := tableCurrentWidthOf dom columnWidths.length
        let newColumnWidths :=
          columnWidths.map (fun w => jsToFixed2 (w / tableCurrentWidth) * containerWidth)
        some ⟨"100%", some newColumnWidths⟩

/-- Applying a props object to a table node (what `Transforms.setNodes`
does to the fields this module sets). -/
def applyProps (t : TableElement) (p : TableProps) : TableElement :=
  { t with width := p.width, columnWidths := p.columnWidths.getD t.columnWidths }

/-- The node update `handleCellBorderVisible` may issue:
new `isHoverCellBorder` / `resizingIndex` values. -/
structure HoverUpdate where
  isHoverCellBorder : Bool
  resizingIndex : ℤ
deriving Repr, DecidableEq

/-- The DOM measurements `handleCellBorderVisible` reads: whether
`e.target` is an HTML element, its bounding rect (`x`, `width`), and the
`x` of `target.closest('.table')`'s rect (`none` when absent). -/
structure HoverDomContext where
  targetIsElement : Bool
  targetRectX : ℚ
  targetRectWidth : ℚ
  closestTableRectX : Option ℚ
deriving Repr, DecidableEq

/-- The loop of `handleCellBorderVisible`: first index `i` with
`cum[i] - 5 ≤ pos < cum[i] + 5`. -/
def findBorderIndex (pos : ℚ) : ℕ → List ℚ → Option ℕ
  | _, [] => none
  | i, c :: rest =>
    if c - 5 ≤ pos ∧ pos < c + 5 then some i
    else findBorderIndex pos (i + 1) rest

/-- `handleCellBorderVisible`: decide which hover update (if any) to
commit.  `isSelectionOperation` / `isMouseDownForResize` are the module's
global flags at call time; the result is the props for
`Transforms.setNodes`, `none` meaning no state change. -/
def handleCellBorderVisible (editor : IDomEditor)
    (isSelectionOperation isMouseDownForResize : Bool)
    (elemNode : TableElement) (clientX : ℚ) (dom : HoverDomContext)
    (scrollWidth : ℚ) : Option HoverUpdate :=
  if editor.disabled then none
  else if isSelectionOperation || isMouseDownForResize then none
  else if dom.targetIsElement ∧ dom.targetRectX + 5 < clientX
      ∧ clientX < dom.targetRectX + dom.targetRectWidth - 5 then
    if elemNode.isHoverCellBorder then some ⟨false, -1⟩ else none
  else
    let insideTable : Option (Option HoverUpdate) :=
      match (if dom.targetIsElement then dom.closestTableRectX else none) with
      | none => none
      | some rx =>
        let widths :=
          if elemNode.width == "100%" then
            (getColumnWidthRatios elemNode.columnWidths).map (fun v => v * scrollWidth)
          else elemNode.columnWidths
        let cumulativeWidths := getCumulativeWidths widths
        match findBorderIndex (clientX - rx) 0 cumulativeWidths with
        | none => none
        | some i =>
          if elemNode.resizingIndex = (i : ℤ) then some none
          else some (some ⟨true, (i : ℤ)⟩)
    match insideTable with
    | some r => r
    | none => if elemNode.isHoverCellBorder = true then some ⟨false, -1⟩ else none

/-- The kind of element a mousedown landed on, as classified by
`onMouseDown`: inside a `[data-block-type="table-cell"]`, a `DIV` inside a
`.column-resizer-item`, or anything else. -/
inductive MouseTarget where
  | tableCell
  | resizerDiv
  | other
deriving Repr, DecidableEq

/-- The window-level events driving the module's global drag state.
`cellBorderMouseDown ed` is the table cell-border handler
`handleCellBorderMouseDown` recording editor `ed` (editors are abstracted
to identifiers). -/
inductive UiEvent where
  | mousedown (target : MouseTarget) (clientX : ℚ)
  | mousemove (clientX : ℚ)
  | mouseup
  | cellBorderMouseDown (ed : ℕ)
deriving Repr, DecidableEq

/-- The module-level mutable drag state: `isSelectionOperation`,
`isMouseDownForResize`, `clientXWhenMouseDown`, `editorWhenMouseDown`,
plus `document.body.style.cursor`. -/
structure DragState where
  isSelectionOperation : Bool
  isMouseDownForResize : Bool
  clientXWhenMouseDown : ℚ
  editorWhenMouseDown : Option ℕ
  cursor : String
deriving Repr, DecidableEq

/-- The initial module state. -/
def initDragState : DragState :=
  { isSelectionOperation := false
    isMouseDownForResize := false
    clientXWhenMouseDown := 0
    editorWhenMouseDown := none
    cursor := "" }

/-- One event's effect on the drag state (`onMouseDown`, `onMouseUp`,
`handleCellBorderMouseDown`; `onMouseMove` mutates no drag state). -/
def stepDrag (s : DragState) : UiEvent → DragState
  | .mousedown .tableCell _ => { s with isSelectionOperation := true }
  | .mousedown .resizerDiv clientX =>
    match s.editorWhenMouseDown with
    | none => s
    | some _ =>
      { s with
        isMouseDownForResize := true
        clientXWhenMouseDown := clientX
        cursor := "col-resize" }
  | .mousedown .other _ => s
  | .mousemove _ => s
  | .mouseup =>
    { s with
      isSelectionOperation := false
      isMouseDownForResize := false
      editorWhenMouseDown := none
      cursor := "" }
  | .cellBorderMouseDown ed =>
    if s.isMouseDownForResize then s
    else { s with editorWhenMouseDown := some ed }

/-- Running a sequence of events from a state. -/
def runDrag (s : DragState) (evs : List UiEvent) : DragState :=
  evs.foldl stepDrag s

/-- The guard at the top of `onMouseMove`: a node update is issued only
when `isMouseDownForResize` is set and an editor was recorded. -/
def onMouseMoveFires (s : DragState) : Bool :=
  s.isMouseDownForResize && s.editorWhenMouseDown.isSome

/-- The spec's description of the activation recompute, written from the
spec's words: each entry is the old entry divided by the current table
width, that quotient rounded to two decimal places, then multiplied by the
container's available width. -/
def specFullWidthNewWidths (old : List ℚ) (tableCurrentWidth containerAvail : ℚ) :
    List ℚ :=
  old.map (fun w => jsToFixed2 (w / tableCurrentWidth) * containerAvail)

/-- The `leftBoundary` value inside
`calculateAdjacentWidthsByBorderPosition` (0 for the first column, else the
previous cumulative width). -/
def resizeLeftBoundary (cumulativeWidths : List ℚ) (i : ℕ) : ℚ :=
  if i = 0 then 0 else cumulativeWidths.getD (i - 1) 0

/-- The `adjustedWidth` value inside
`calculateAdjacentWidthsByBorderPosition`: the border-position width
clamped below by the configured minimum. -/
def resizeAdjustedWidth (resizingIndex : ℕ) (mousePositionInTable : ℚ)
    (cumulativeWidths : List ℚ) (editor : IDomEditor) : ℚ :=
  max ((minColumnWidthOf editor : ℤ) : ℚ)
    (mousePositionInTable - resizeLeftBoundary cumulativeWidths resizingIndex)

/-- The `widthChange` value inside the full-width branch of
`calculateAdjacentWidthsByBorderPosition`. -/
def resizeWidthChange (columnWidths : List ℚ) (resizingIndex : ℕ)
    (mousePositionInTable : ℚ) (cumulativeWidths : List ℚ)
    (editor : IDomEditor) : ℚ :=
  resizeAdjustedWidth resizingIndex mousePositionInTable cumulativeWidths editor
    - columnWidths.getD resizingIndex 0

/-- The adjacent column the full-width branch compensates: the right
neighbour when it exists, otherwise the left neighbour. -/
def adjacentIndex (n i : ℕ) : ℕ :=
  if i + 1 < n then i + 1 else i - 1

/-- A rational is an exact multiple of 1/100 (i.e. it has at most two
decimal places, so two-decimal truncation and rounding leave it fixed). -/
def isCent (x : ℚ) : Prop := ∃ k : ℤ, x * 100 = (k : ℚ)

/-- Sample editor state: a selected single-column full-width table. -/
def sampleFullWidthEditor : IDomEditor :=
  { selection := some true
    selectedTable := some ⟨"100%", [100], false, 0⟩
    insertTableMinWidth := none
    disabled := false }

/-- Sample editor state: a selected two-column full-width table. -/
def sampleFullWidthEditor2 : IDomEditor :=
  { selection := some true
    selectedTable := some ⟨"100%", [100, 100], false, 0⟩
    insertTableMinWidth := none
    disabled := false }

/-- Sample editor state: a selected three-column intrinsic-width table. -/
def sampleAutoEditor3 : IDomEditor :=
  { selection := some true
    selectedTable := some ⟨"auto", [100, 100, 100], false, -1⟩
    insertTableMinWidth := none
    disabled := false }

/-- Sample DOM measurements: 600px container without padding, table
style width 300px without padding. -/
def sampleDom600 : FullWidthDomContext :=
  { hasContainer := true
    hasInnerTable := true
    containerClientWidth := 600
    containerPaddingLeft := 0
    containerPaddingRight := 0
    tablePaddingLeft := 0
    tablePaddingRight := 0
    tableStyleWidthPx := some 300 }

/-- Sample DOM measurements with the `.table-container` element absent. -/
def sampleDomNoContainer : FullWidthDomContext :=
  { hasContainer := false
    hasInnerTable := false
    containerClientWidth := 600
    containerPaddingLeft := 0
    containerPaddingRight := 0
    tablePaddingLeft := 0
    tablePaddingRight := 0
    tableStyleWidthPx := none }

/-! ## Helper lemmas -/

theorem getD_set_self (l : List ℚ) (i : ℕ) (a : ℚ) (h : i < l.length) :
    (l.set i a).getD i 0 = a := by
  rw [List.getD_eq_getElem?_getD, List.getElem?_set_self h]
  rfl

theorem getD_set_ne (l : List ℚ) (i j : ℕ) (a : ℚ) (h : i ≠ j) :
    (l.set i a).getD j 0 = l.getD j 0 := by
  rw [List.getD_eq_getElem?_getD, List.getElem?_set_ne h,
    ← List.getD_eq_getElem?_getD]

theorem sum_set_getD (l : List ℚ) : ∀ (i : ℕ) (a : ℚ), i < l.length →
    (l.set i a).sum = l.sum - l.getD i 0 + a := by
  induction l with
  | nil => intro i a h; simp at h
  | cons w t ih =>
    intro i a h
    cases i with
    | zero =>
      have hs : (w :: t).set 0 a = a :: t := rfl
      rw [hs, List.sum_cons, List.sum_cons, List.getD_cons_zero]
      ring
    | succ i =>
      have hs : (w :: t).set (i + 1) a = w :: t.set i a := rfl
      rw [hs, List.sum_cons, List.sum_cons, List.getD_cons_succ,
        ih i a (by simpa using h)]
      ring

theorem intCast_le_jsFloor2 (m : ℤ) (x : ℚ) (h : (m : ℚ) ≤ x) :
    (m : ℚ) ≤ jsFloor2 x := by
  unfold jsFloor2
  rw [le_div_iff₀ (by norm_num : (0 : ℚ) < 100)]
  have hq : ((m * 100 : ℤ) : ℚ) ≤ x * 100 := by
    push_cast
    nlinarith
  have hf : (m * 100 : ℤ) ≤ ⌊x * 100⌋ := Int.le_floor.mpr hq
  calc (m : ℚ) * 100 = ((m * 100 : ℤ) : ℚ) := by push_cast; ring
    _ ≤ ((⌊x * 100⌋ : ℤ) : ℚ) := by exact_mod_cast hf

theorem numberToFixed_jsFloor2 (x : ℚ) :
    numberToFixed (jsFloor2 x) = jsFloor2 x := by
  unfold numberToFixed jsToFixed2 jsFloor2
  rw [div_mul_cancel₀ _ (by norm_num : (100 : ℚ) ≠ 0), round_intCast]

theorem jsFloor2_eq_self (x : ℚ) (h : isCent x) : jsFloor2 x = x := by
  obtain ⟨k, hk⟩ := h
  unfold jsFloor2
  rw [hk, Int.floor_intCast, div_eq_iff (by norm_num : (100 : ℚ) ≠ 0)]
  exact hk.symm

theorem jsToFixed2_eq_self (x : ℚ) (h : isCent x) : jsToFixed2 x = x := by
  obtain ⟨k, hk⟩ := h
  unfold jsToFixed2
  rw [hk, round_intCast, div_eq_iff (by norm_num : (100 : ℚ) ≠ 0)]
  exact hk.symm

theorem isCent_intCast (m : ℤ) : isCent ((m : ℤ) : ℚ) :=
  ⟨m * 100, by push_cast; ring⟩

theorem isCent_zero : isCent (0 : ℚ) := ⟨0, by norm_num⟩

theorem isCent_add {x y : ℚ} (hx : isCent x) (hy : isCent y) : isCent (x + y) := by
  obtain ⟨k, hk⟩ := hx
  obtain ⟨l, hl⟩ := hy
  exact ⟨k + l, by push_cast; linarith⟩

theorem isCent_sub {x y : ℚ} (hx : isCent x) (hy : isCent y) : isCent (x - y) := by
  obtain ⟨k, hk⟩ := hx
  obtain ⟨l, hl⟩ := hy
  exact ⟨k - l, by push_cast; linarith⟩

theorem isCent_max {x y : ℚ} (hx : isCent x) (hy : isCent y) : isCent (max x y) := by
  rcases max_choice x y with h | h <;> rw [h] <;> assumption

theorem isCent_getD_zero {l : List ℚ} (hall : ∀ w ∈ l, isCent w) (i : ℕ) :
    isCent (l.getD i 0) := by
  rw [List.getD_eq_getElem?_getD]
  cases h' : l[i]? with
  | none => simpa using isCent_zero
  | some a =>
    have ha : a ∈ l := List.getElem?_mem h'
    simpa using hall a ha

theorem isCent_cumulativeFrom {l : List ℚ} (hall : ∀ w ∈ l, isCent w) :
    ∀ (total : ℚ), isCent total → ∀ c ∈ cumulativeFrom total l, isCent c := by
  induction l with
  | nil => intro total _ c hc; simp [cumulativeFrom] at hc
  | cons w t ih =>
    intro total htotal c hc
    have hw : isCent w := hall w (by simp)
    have hrest : ∀ x ∈ t, isCent x := fun x hx => hall x (by simp [hx])
    simp only [cumulativeFrom, List.mem_cons] at hc
    rcases hc with hc | hc
    · rw [hc]; exact isCent_add htotal hw
    · exact ih hrest (total + w) (isCent_add htotal hw) c hc

theorem isCent_getCumulativeWidths {l : List ℚ} (hall : ∀ w ∈ l, isCent w) :
    ∀ c ∈ getCumulativeWidths l, isCent c :=
  isCent_cumulativeFrom hall 0 isCent_zero

/-- `calculateAdjacentWidthsByBorderPosition` restated through the named
views of its internal values (definitional unfolding). -/
theorem byBorderPosition_eq (columnWidths : List ℚ) (resizingIndex : ℤ)
    (mousePositionInTable : ℚ) (cumulativeWidths : List ℚ)
    (editor : IDomEditor) :
    calculateAdjacentWidthsByBorderPosition columnWidths resizingIndex
        mousePositionInTable cumulativeWidths editor =
      if resizingIndex < 0 ∨ (columnWidths.length : ℤ) ≤ resizingIndex then
        columnWidths
      else
        let i := resizingIndex.toNat
        let a := resizeAdjustedWidth i mousePositionInTable cumulativeWidths editor
        if isFullWidthActive editor = false then
          columnWidths.set i (numberToFixed (jsFloor2 a))
        else
          let wc := resizeWidthChange columnWidths i mousePositionInTable
            cumulativeWidths editor
          let newWidths := columnWidths.set i (numberToFixed (jsFloor2 a))
          if |wc| < 1 / 10 then newWidths
          else if 0 < wc then
            if i + 1 < columnWidths.length then
              newWidths.set (i + 1)
                (numberToFixed (jsFloor2
                  (max ((minColumnWidthOf editor : ℤ) : ℚ)
                    (columnWidths.getD (i + 1) 0 - wc))))
            else if 0 < i then
              newWidths.set (i - 1)
                (numberToFixed (jsFloor2
                  (max ((minColumnWidthOf editor : ℤ) : ℚ)
                    (columnWidths.getD (i - 1) 0 - wc))))
            else newWidths
          else
            if i + 1 < columnWidths.length then
              newWidths.set (i + 1)
                (numberToFixed (jsFloor2 (columnWidths.getD (i + 1) 0 - wc)))
            else if 0 < i then
              newWidths.set (i - 1)
                (numberToFixed (jsFloor2 (columnWidths.getD (i - 1) 0 - wc)))
            else newWidths := rfl

/-! ## Claim theorems -/

/-- C10: for every input, `calculateAdjacentWidthsByBorderPosition` returns
a list of the same length as the input `columnWidths`, and when
`resizingIndex` is out of range (negative or at least the number of
columns) the returned list equals the input unchanged. -/
theorem claim_C10_length_and_out_of_range (columnWidths : List ℚ)
    (resizingIndex : ℤ) (mousePositionInTable : ℚ) (cumulativeWidths : List ℚ)
    (editor : IDomEditor) :
    (calculateAdjacentWidthsByBorderPosition columnWidths resizingIndex
        mousePositionInTable cumulativeWidths editor).length = columnWidths.length
    ∧ (resizingIndex < 0 ∨ (columnWidths.length : ℤ) ≤ resizingIndex →
      calculateAdjacentWidthsByBorderPosition columnWidths resizingIndex
        mousePositionInTable cumulativeWidths editor = columnWidths) := by
  constructor
  · rw [byBorderPosition_eq]
    dsimp only
    split_ifs <;> simp [List.length_set]
  · intro h
    rw [byBorderPosition_eq, if_pos h]

/-- Witness for C10 at a concrete out-of-range input. -/
theorem claim_C10_witness :
    (calculateAdjacentWidthsByBorderPosition [10, 20] (-1) 5
        (getCumulativeWidths [10, 20]) sampleFullWidthEditor2).length
      = ([10, 20] : List ℚ).length
    ∧ calculateAdjacentWidthsByBorderPosition [10, 20] (-1) 5
        (getCumulativeWidths [10, 20]) sampleFullWidthEditor2 = [10, 20] := by
  have h := claim_C10_length_and_out_of_range [10, 20] (-1) 5
    (getCumulativeWidths [10, 20]) sampleFullWidthEditor2
  exact ⟨h.1, h.2 (by decide)⟩

/-- C9: in non-full-width mode, with an in-range `resizingIndex`,
`calculateAdjacentWidthsByBorderPosition` changes only the entry at
`resizingIndex`: every other entry of the result equals the corresponding
input entry. -/
theorem claim_C9_non_full_width_frame (columnWidths : List ℚ)
    (resizingIndex : ℤ) (mousePositionInTable : ℚ) (cumulativeWidths : List ℚ)
    (editor : IDomEditor) (hf : isFullWidthActive editor = false)
    (h0 : 0 ≤ resizingIndex) (hn : resizingIndex < (columnWidths.length : ℤ)) :
    ∀ j : ℕ, j ≠ resizingIndex.toNat →
      (calculateAdjacentWidthsByBorderPosition columnWidths resizingIndex
          mousePositionInTable cumulativeWidths editor).getD j 0
        = columnWidths.getD j 0 := by
  intro j hj
  have hguard : ¬(resizingIndex < 0 ∨ (columnWidths.length : ℤ) ≤ resizingIndex) := by
    omega
  rw [byBorderPosition_eq, if_neg hguard]
  simp only [hf]
  exact getD_set_ne _ _ _ _ (Ne.symm hj)

/-- Witness for C9 at a concrete input. -/
theorem claim_C9_witness :
    (calculateAdjacentWidthsByBorderPosition [100, 100, 100] 0 130
        (getCumulativeWidths [100, 100, 100]) sampleAutoEditor3).getD 1 0
      = ([100, 100, 100] : List ℚ).getD 1 0 :=
  claim_C9_non_full_width_frame [100, 100, 100] 0 130
    (getCumulativeWidths [100, 100, 100]) sampleAutoEditor3
    (by decide) (by decide) (by decide) 1 (by decide)

/-- The clamp in the drag recompute never goes below the configured
minimum. -/
theorem minCast_le_resizeAdjustedWidth (i : ℕ) (mouse : ℚ) (cum : List ℚ)
    (editor : IDomEditor) :
    ((minColumnWidthOf editor : ℤ) : ℚ) ≤ resizeAdjustedWidth i mouse cum editor :=
  le_max_left _ _

/-- Two-decimal truncation followed by two-decimal rounding stays at or
above any integer bound the argument satisfies. -/
theorem minCast_le_numberToFixed_jsFloor2 (m : ℤ) (x : ℚ) (h : (m : ℚ) ≤ x) :
    (m : ℚ) ≤ numberToFixed (jsFloor2 x) := by
  rw [numberToFixed_jsFloor2]
  exact intCast_le_jsFloor2 m x h

/-- C8: for every drag recompute — `calculateAdjacentWidths`, and
`calculateAdjacentWidthsByBorderPosition` in either mode — with an
in-range `resizingIndex`, the resized column's returned width is at least
the configured minimum column width. -/
theorem claim_C8_min_width (columnWidths : List ℚ) (resizingIndex : ℤ)
    (widthChange mousePositionInTable : ℚ) (cumulativeWidths : List ℚ)
    (editor : IDomEditor) (h0 : 0 ≤ resizingIndex)
    (hn : resizingIndex < (columnWidths.length : ℤ)) :
    ((minColumnWidthOf editor : ℤ) : ℚ)
        ≤ (calculateAdjacentWidths columnWidths resizingIndex widthChange
            editor).getD resizingIndex.toNat 0
    ∧ ((minColumnWidthOf editor : ℤ) : ℚ)
        ≤ (calculateAdjacentWidthsByBorderPosition columnWidths resizingIndex
            mousePositionInTable cumulativeWidths editor).getD
            resizingIndex.toNat 0 := by
  have hguard : ¬(resizingIndex < 0 ∨ (columnWidths.length : ℤ) ≤ resizingIndex) := by
    omega
  have hlen : resizingIndex.toNat < columnWidths.length := by omega
  constructor
  · unfold calculateAdjacentWidths
    rw [if_pos ⟨h0, hn⟩]
    dsimp only
    rw [getD_set_self _ _ _ hlen]
    exact intCast_le_jsFloor2 _ _ (le_max_left _ _)
  · rw [byBorderPosition_eq, if_neg hguard]
    dsimp only
    split_ifs with h1 h2 h3 h4 h5 h6 h7
    · rw [getD_set_self _ _ _ hlen]
      exact minCast_le_numberToFixed_jsFloor2 _ _
        (minCast_le_resizeAdjustedWidth _ _ _ _)
    · rw [getD_set_self _ _ _ hlen]
      exact minCast_le_numberToFixed_jsFloor2 _ _
        (minCast_le_resizeAdjustedWidth _ _ _ _)
    · rw [getD_set_ne _ _ _ _ (by omega), getD_set_self _ _ _ hlen]
      exact minCast_le_numberToFixed_jsFloor2 _ _
        (minCast_le_resizeAdjustedWidth _ _ _ _)
    · rw [getD_set_ne _ _ _ _ (by omega), getD_set_self _ _ _ hlen]
      exact minCast_le_numberToFixed_jsFloor2 _ _
        (minCast_le_resizeAdjustedWidth _ _ _ _)
    · rw [getD_set_self _ _ _ hlen]
      exact minCast_le_numberToFixed_jsFloor2 _ _
        (minCast_le_resizeAdjustedWidth _ _ _ _)
    · rw [getD_set_ne _ _ _ _ (by omega), getD_set_self _ _ _ hlen]
      exact minCast_le_numberToFixed_jsFloor2 _ _
        (minCast_le_resizeAdjustedWidth _ _ _ _)
    · rw [getD_set_ne _ _ _ _ (by omega), getD_set_self _ _ _ hlen]
      exact minCast_le_numberToFixed_jsFloor2 _ _
        (minCast_le_resizeAdjustedWidth _ _ _ _)
    · rw [getD_set_self _ _ _ hlen]
      exact minCast_le_numberToFixed_jsFloor2 _ _
        (minCast_le_resizeAdjustedWidth _ _ _ _)

/-- Witness for C8 at a concrete input where the clamp engages. -/
theorem claim_C8_witness :
    ((minColumnWidthOf sampleAutoEditor3 : ℤ) : ℚ)
        ≤ (calculateAdjacentWidths [100, 100, 100] 0 (-50)
            sampleAutoEditor3).getD (0 : ℤ).toNat 0
    ∧ ((minColumnWidthOf sampleAutoEditor3 : ℤ) : ℚ)
        ≤ (calculateAdjacentWidthsByBorderPosition [100, 100, 100] 0 50
            (getCumulativeWidths [100, 100, 100]) sampleAutoEditor3).getD
            (0 : ℤ).toNat 0 :=
  claim_C8_min_width [100, 100, 100] 0 (-50) 50
    (getCumulativeWidths [100, 100, 100]) sampleAutoEditor3
    (by decide) (by decide)

/-- C4 counterexample: with a full-width table selected and a collapsed
selection, `exec` issues a `width := 'auto'` update even though the
`.table-container` element is absent — so "table-container absent implies
no state change" is false as stated (the deactivation path never consults
the DOM). -/
theorem claim_C4_counterexample :
    sampleDomNoContainer.hasContainer = false
    ∧ exec sampleFullWidthEditor sampleDomNoContainer ≠ none := by
  decide

/-- C4 amended: each operation is a defensive no-op on the conditions it
actually checks — `exec` when the selection is null, non-collapsed, or no
table node is selected, and (on the activation path, i.e. when the table
is not already full-width) when the table-container is absent, the column
widths are empty, or the inner table is absent; `handleCellBorderVisible`
when the editor is disabled.  No error is signalled in any of these cases
(the functions just return no update). -/
theorem claim_C4_amended_guards (editor : IDomEditor) (dom : FullWidthDomContext)
    (isSel isDown : Bool) (elemNode : TableElement) (clientX : ℚ)
    (hdom : HoverDomContext) (scrollWidth : ℚ) :
    (editor.selection = none → exec editor dom = none)
    ∧ (editor.selection = some false → exec editor dom = none)
    ∧ (editor.selectedTable = none → exec editor dom = none)
    ∧ (∀ t : TableElement, editor.selectedTable = some t →
        isFullWidthActive editor = false →
        dom.hasContainer = false ∨ t.columnWidths = [] ∨ dom.hasInnerTable = false →
        exec editor dom = none)
    ∧ (editor.disabled = true →
        handleCellBorderVisible editor isSel isDown elemNode clientX hdom
          scrollWidth = none) := by
  refine ⟨?_, ?_, ?_, ?_, ?_⟩
  · intro h
    simp [exec, menuIsDisabled, h]
  · intro h
    simp [exec, menuIsDisabled, h]
  · intro h
    cases hs : editor.selection with
    | none => simp [exec, menuIsDisabled, hs]
    | some c =>
      cases c with
      | false => simp [exec, menuIsDisabled, hs]
      | true => simp [exec, menuIsDisabled, hs, h]
  · intro t hsel hact hmiss
    cases hmd : menuIsDisabled editor with
    | true => simp [exec, hmd]
    | false =>
      rcases hmiss with hmiss | hmiss | hmiss
      · simp [exec, hmd, hact, hsel, hmiss]
      · simp [exec, hmd, hact, hsel, hmiss]
      · simp [exec, hmd, hact, hsel, hmiss]
  · intro h
    simp [handleCellBorderVisible, h]

/-- Witness for the amended C4 at concrete inputs: a null-selection editor
for `exec`, and a disabled editor for `handleCellBorderVisible`. -/
theorem claim_C4_amended_witness :
    exec ⟨none, none, none, false⟩ sampleDom600 = none
    ∧ handleCellBorderVisible ⟨some true, none, none, true⟩ false false
        ⟨"auto", [], false, -1⟩ 0 ⟨false, 0, 0, none⟩ 0 = none := by
  have h1 := claim_C4_amended_guards ⟨none, none, none, false⟩ sampleDom600
    false false ⟨"auto", [], false, -1⟩ 0 ⟨false, 0, 0, none⟩ 0
  have h2 := claim_C4_amended_guards ⟨some true, none, none, true⟩ sampleDom600
    false false ⟨"auto", [], false, -1⟩ 0 ⟨false, 0, 0, none⟩ 0
  exact ⟨h1.1 rfl, h2.2.2.2.2 rfl⟩

/-- C7: after any mouseup, all drag-gesture state is cleared —
`isSelectionOperation` and `isMouseDownForResize` are false,
`editorWhenMouseDown` is null and the document cursor style is restored —
regardless of the state the gesture was in. -/
theorem claim_C7_mouseup_clears (s : DragState) :
    (stepDrag s UiEvent.mouseup).isSelectionOperation = false
    ∧ (stepDrag s UiEvent.mouseup).isMouseDownForResize = false
    ∧ (stepDrag s UiEvent.mouseup).editorWhenMouseDown = none
    ∧ (stepDrag s UiEvent.mouseup).cursor = "" :=
  ⟨rfl, rfl, rfl, rfl⟩

/-- Appending one event to a run. -/
theorem runDrag_append_singleton (s : DragState) (l : List UiEvent) (e : UiEvent) :
    runDrag s (l ++ [e]) = stepDrag (runDrag s l) e := by
  simp [runDrag, List.foldl_append]

/-- Where the `isMouseDownForResize` flag comes from: any run of events
ending with the flag set contains a mousedown on a column-resizer element,
performed while an editor was recorded, with no mouseup after it. -/
theorem isMouseDownForResize_origin (evs : List UiEvent)
    (h : (runDrag initDragState evs).isMouseDownForResize = true) :
    ∃ l₁ x l₂, evs = l₁ ++ UiEvent.mousedown MouseTarget.resizerDiv x :: l₂
      ∧ UiEvent.mouseup ∉ l₂
      ∧ (runDrag initDragState l₁).editorWhenMouseDown.isSome = true := by
  induction evs using List.reverseRecOn with
  | nil => simp [runDrag, initDragState] at h
  | append_singleton l e ih =>
    rw [runDrag_append_singleton] at h
    cases e with
    | mousedown target clientX =>
      cases target with
      | tableCell =>
        have hl := ih (by simpa [stepDrag] using h)
        obtain ⟨l₁, x, l₂, hsplit, hnup, hed⟩ := hl
        exact ⟨l₁, x, l₂ ++ [UiEvent.mousedown MouseTarget.tableCell clientX],
          by rw [hsplit]; simp, by simp [hnup], hed⟩
      | resizerDiv =>
        cases hed : (runDrag initDragState l).editorWhenMouseDown with
        | none =>
          have hl := ih (by simpa [stepDrag, hed] using h)
          obtain ⟨l₁, x, l₂, hsplit, hnup, hed'⟩ := hl
          exact ⟨l₁, x, l₂ ++ [UiEvent.mousedown MouseTarget.resizerDiv clientX],
            by rw [hsplit]; simp, by simp [hnup], hed'⟩
        | some ed =>
          exact ⟨l, clientX, [], by simp, by simp, by simp [hed]⟩
      | other =>
        have hl := ih (by simpa [stepDrag] using h)
        obtain ⟨l₁, x, l₂, hsplit, hnup, hed⟩ := hl
        exact ⟨l₁, x, l₂ ++ [UiEvent.mousedown MouseTarget.other clientX],
          by rw [hsplit]; simp, by simp [hnup], hed⟩
    | mousemove clientX =>
      have hl := ih (by simpa [stepDrag] using h)
      obtain ⟨l₁, x, l₂, hsplit, hnup, hed⟩ := hl
      exact ⟨l₁, x, l₂ ++ [UiEvent.mousemove clientX],
        by rw [hsplit]; simp, by simp [hnup], hed⟩
    | mouseup => simp [stepDrag] at h
    | cellBorderMouseDown ed =>
      have hflag : (runDrag initDragState l).isMouseDownForResize = true := by
        by_cases hb : (runDrag initDragState l).isMouseDownForResize = true
        · exact hb
        · simp [stepDrag, hb] at h
      have hl := ih hflag
      obtain ⟨l₁, x, l₂, hsplit, hnup, hed⟩ := hl
      exact ⟨l₁, x, l₂ ++ [UiEvent.cellBorderMouseDown ed],
        by rw [hsplit]; simp, by simp [hnup], hed⟩

/-- C5: `onMouseMove` commits a node update only inside an active drag
gesture: whenever its guard fires after a run of events, the run contains
a mousedown on a column-resizer element — performed with a recorded
editor, which is what sets `isMouseDownForResize` — and no mouseup has
occurred since. -/
theorem claim_C5_no_update_outside_gesture (evs : List UiEvent)
    (h : onMouseMoveFires (runDrag initDragState evs) = true) :
    ∃ l₁ x l₂, evs = l₁ ++ UiEvent.mousedown MouseTarget.resizerDiv x :: l₂
      ∧ UiEvent.mouseup ∉ l₂
      ∧ (runDrag initDragState l₁).editorWhenMouseDown.isSome = true := by
  have hflag : (runDrag initDragState evs).isMouseDownForResize = true := by
    have h' := h
    unfold onMouseMoveFires at h'
    exact (Bool.and_eq_true _ _).mp h' |>.1
  exact isMouseDownForResize_origin evs hflag

/-- Witness for C5 at a concrete event trace. -/
theorem claim_C5_witness :
    ∃ l₁ x l₂,
      [UiEvent.cellBorderMouseDown 7,
        UiEvent.mousedown MouseTarget.resizerDiv 10,
        UiEvent.mousemove 25]
        = l₁ ++ UiEvent.mousedown MouseTarget.resizerDiv x :: l₂
      ∧ UiEvent.mouseup ∉ l₂
      ∧ (runDrag initDragState l₁).editorWhenMouseDown.isSome = true :=
  claim_C5_no_update_outside_gesture
    [UiEvent.cellBorderMouseDown 7,
      UiEvent.mousedown MouseTarget.resizerDiv 10,
      UiEvent.mousemove 25]
    (by decide)

/-- C6: running the full-width toggle's `exec` on a table that is currently
full width issues only a `width := 'auto'` prop; applying that prop leaves
`columnWidths` unchanged. -/
theorem claim_C6_deactivation_frame (editor : IDomEditor)
    (dom : FullWidthDomContext) (hen : menuIsDisabled editor = false)
    (hact : isFullWidthActive editor = true) :
    exec editor dom = some ⟨"auto", none⟩
    ∧ ∀ t : TableElement,
        (applyProps t ⟨"auto", none⟩).columnWidths = t.columnWidths
        ∧ (applyProps t ⟨"auto", none⟩).width = "auto" := by
  constructor
  · simp [exec, hen, hact]
  · intro t
    exact ⟨rfl, rfl⟩

theorem getD_map_zero (f : ℚ → ℚ) (l : List ℚ) (i : ℕ) (h : i < l.length) :
    (l.map f).getD i 0 = f (l.getD i 0) := by
  rw [List.getD_eq_getElem?_getD, List.getElem?_map, List.getElem?_eq_getElem h,
    List.getD_eq_getElem?_getD, List.getElem?_eq_getElem h]
  rfl

theorem sum_map_div (l : List ℚ) (W : ℚ) :
    (l.map (fun w => w / W)).sum = l.sum / W := by
  induction l with
  | nil => simp
  | cons x t ih => simp [ih, add_div]

theorem sum_map_mul_right_q (l : List ℚ) (f : ℚ → ℚ) (c : ℚ) :
    (l.map (fun w => f w * c)).sum = (l.map f).sum * c := by
  induction l with
  | nil => simp
  | cons x t ih => simp [ih, add_mul]

/-- Rounding to two decimals moves a rational by at most 1/200. -/
theorem abs_jsToFixed2_sub (x : ℚ) : |jsToFixed2 x - x| ≤ 1 / 200 := by
  have h2 : |((round (x * 100) : ℤ) : ℚ) - x * 100| ≤ 1 / 2 := by
    rw [abs_sub_comm]
    exact abs_sub_round (x * 100)
  have h3 : jsToFixed2 x - x = (((round (x * 100) : ℤ) : ℚ) - x * 100) / 100 := by
    unfold jsToFixed2
    ring
  rw [h3, abs_div]
  have h4 : |(100 : ℚ)| = 100 := by norm_num
  rw [h4]
  linarith

/-- Rounding every entry of a list to two decimals moves the sum by at
most `length / 200`. -/
theorem sum_map_jsToFixed2_bound (l : List ℚ) :
    |(l.map jsToFixed2).sum - l.sum| ≤ (l.length : ℚ) / 200 := by
  induction l with
  | nil => simp
  | cons x t ih =>
    have hx := abs_jsToFixed2_sub x
    have htr : |(jsToFixed2 x + (t.map jsToFixed2).sum) - (x + t.sum)|
        ≤ |jsToFixed2 x - x| + |(t.map jsToFixed2).sum - t.sum| := by
      rw [add_sub_add_comm]
      exact abs_add _ _
    simp only [List.map_cons, List.sum_cons, List.length_cons]
    push_cast
    calc |jsToFixed2 x + (t.map jsToFixed2).sum - (x + t.sum)|
        ≤ |jsToFixed2 x - x| + |(t.map jsToFixed2).sum - t.sum| := htr
      _ ≤ 1 / 200 + (t.length : ℚ) / 200 := add_le_add hx ih
      _ = ((t.length : ℚ) + 1) / 200 := by ring

/-- The conversion base is at least 60 per column. -/
theorem le_tableCurrentWidthOf (dom : FullWidthDomContext) (n : ℕ) :
    (n : ℚ) * 60 ≤ tableCurrentWidthOf dom n := by
  unfold tableCurrentWidthOf
  exact le_max_left _ _

/-- C2: activating the full-width toggle on a non-full-width table with
container, inner table and non-empty `columnWidths` present (and a
parsable table style width `wpx`) produces exactly the spec's formula:
each entry is the old entry divided by the current table width — the
quotient rounded to two decimal places — times the container's available
width, where the current table width is
`max (60 * number of columns) (wpx - horizontal table padding)`. -/
theorem claim_C2_activation_formula (editor : IDomEditor)
    (dom : FullWidthDomContext) (t : TableElement)
    (hsel : editor.selectedTable = some t)
    (hen : menuIsDisabled editor = false)
    (hact : isFullWidthActive editor = false)
    (hc : dom.hasContainer = true) (hit : dom.hasInnerTable = true)
    (hne : t.columnWidths ≠ []) (wpx : ℤ)
    (hw : dom.tableStyleWidthPx = some wpx) :
    exec editor dom
      = some ⟨"100%", some (specFullWidthNewWidths t.columnWidths
          (max (60 * (t.columnWidths.length : ℚ))
            ((wpx : ℚ) - (dom.tablePaddingLeft : ℚ) - (dom.tablePaddingRight : ℚ)))
          (containerWidthOf dom))⟩
    ∧ ∀ i : ℕ, i < t.columnWidths.length →
        (specFullWidthNewWidths t.columnWidths
            (max (60 * (t.columnWidths.length : ℚ))
              ((wpx : ℚ) - (dom.tablePaddingLeft : ℚ) - (dom.tablePaddingRight : ℚ)))
            (containerWidthOf dom)).getD i 0
          = jsToFixed2 (t.columnWidths.getD i 0
              / max (60 * (t.columnWidths.length : ℚ))
                ((wpx : ℚ) - (dom.tablePaddingLeft : ℚ) - (dom.tablePaddingRight : ℚ)))
            * containerWidthOf dom := by
  have hlen0 : t.columnWidths.length ≠ 0 := by
    simpa [List.length_eq_zero] using hne
  constructor
  · simp [exec, hen, hact, hsel, hc, hlen0, hit, specFullWidthNewWidths,
      tableCurrentWidthOf, hw, mul_comm]
  · intro i hi
    unfold specFullWidthNewWidths
    rw [getD_map_zero _ _ _ hi]

/-- Witness for C2 at a concrete editor and DOM state. -/
theorem claim_C2_witness :
    exec sampleAutoEditor3 sampleDom600
      = some ⟨"100%", some (specFullWidthNewWidths ([100, 100, 100] : List ℚ)
          (max (60 * (([100, 100, 100] : List ℚ).length : ℚ))
            (((300 : ℤ) : ℚ) - (sampleDom600.tablePaddingLeft : ℚ)
              - (sampleDom600.tablePaddingRight : ℚ)))
          (containerWidthOf sampleDom600))⟩ :=
  (claim_C2_activation_formula sampleAutoEditor3 sampleDom600
    ⟨"auto", [100, 100, 100], false, -1⟩ rfl (by decide) (by decide) rfl rfl
    (by decide) 300 rfl).1

/-- C3 counterexample: a three-column table whose `columnWidths` sum to
the measured current table width (300), in a 600-wide container; after
activation the new widths are `[198, 198, 198]`, whose sum 594 is not the
container width 600 (the per-entry two-decimal rounding loses mass). -/
theorem claim_C3_counterexample :
    isFullWidthActive sampleAutoEditor3 = false
    ∧ sampleAutoEditor3.selectedTable
        = some ⟨"auto", [100, 100, 100], false, -1⟩
    ∧ ([100, 100, 100] : List ℚ).sum
        = tableCurrentWidthOf sampleDom600 ([100, 100, 100] : List ℚ).length
    ∧ exec sampleAutoEditor3 sampleDom600
        = some ⟨"100%", some [198, 198, 198]⟩
    ∧ ([198, 198, 198] : List ℚ).sum ≠ containerWidthOf sampleDom600 := by
  have hact : isFullWidthActive sampleAutoEditor3 = false := by decide
  have hdis : menuIsDisabled sampleAutoEditor3 = false := by decide
  have hW : tableCurrentWidthOf sampleDom600 ([100, 100, 100] : List ℚ).length = 300 := by
    norm_num [tableCurrentWidthOf, containerWidthOf, sampleDom600, max_def]
  refine ⟨hact, rfl, ?_, ?_, ?_⟩
  · rw [hW]; norm_num
  · have hsel : sampleAutoEditor3.selectedTable
        = some ⟨"auto", [100, 100, 100], false, -1⟩ := rfl
    simp only [exec, hdis, hact, hsel, Bool.false_eq_true, if_false]
    rw [hW]
    norm_num [sampleDom600, containerWidthOf, jsToFixed2, round_eq]
  · norm_num [containerWidthOf, sampleDom600]

/-- C3 amended: under the claim's hypotheses the toggle does set `width`
to `'100%'`, and the new column widths sum to the container's available
width only up to the rounding loss: the sum differs from `containerWidth`
by at most `#columns * containerWidth / 200`. -/
theorem claim_C3_amended (editor : IDomEditor) (dom : FullWidthDomContext)
    (t : TableElement) (hsel : editor.selectedTable = some t)
    (hen : menuIsDisabled editor = false)
    (hact : isFullWidthActive editor = false)
    (hc : dom.hasContainer = true) (hit : dom.hasInnerTable = true)
    (hne : t.columnWidths ≠ [])
    (hsum : t.columnWidths.sum = tableCurrentWidthOf dom t.columnWidths.length)
    (hcw : 0 ≤ containerWidthOf dom) :
    exec editor dom
      = some ⟨"100%", some (specFullWidthNewWidths t.columnWidths
          (tableCurrentWidthOf dom t.columnWidths.length) (containerWidthOf dom))⟩
    ∧ |(specFullWidthNewWidths t.columnWidths
          (tableCurrentWidthOf dom t.columnWidths.length)
          (containerWidthOf dom)).sum - containerWidthOf dom|
        ≤ (t.columnWidths.length : ℚ) * containerWidthOf dom / 200 := by
  have hlen0 : t.columnWidths.length ≠ 0 := by
    simpa [List.length_eq_zero] using hne
  have hn1 : 1 ≤ t.columnWidths.length := Nat.one_le_iff_ne_zero.mpr hlen0
  constructor
  · simp [exec, hen, hact, hsel, hc, hlen0, hit, specFullWidthNewWidths]
  · have hW : (0 : ℚ) < tableCurrentWidthOf dom t.columnWidths.length := by
      have h1 : (1 : ℚ) ≤ (t.columnWidths.length : ℚ) := by exact_mod_cast hn1
      have h60 : (60 : ℚ) ≤ (t.columnWidths.length : ℚ) * 60 := by nlinarith
      have h2 := le_tableCurrentWidthOf dom t.columnWidths.length
      linarith
    have h1 : (specFullWidthNewWidths t.columnWidths
          (tableCurrentWidthOf dom t.columnWidths.length)
          (containerWidthOf dom)).sum
        = ((t.columnWidths.map
            (fun w => w / tableCurrentWidthOf dom t.columnWidths.length)).map
              jsToFixed2).sum * containerWidthOf dom := by
      unfold specFullWidthNewWidths
      rw [sum_map_mul_right_q, List.map_map]
      rfl
    have hrsum : (t.columnWidths.map
        (fun w => w / tableCurrentWidthOf dom t.columnWidths.length)).sum = 1 := by
      rw [sum_map_div, hsum]
      exact div_self (ne_of_gt hW)
    have hrlen : (t.columnWidths.map
        (fun w => w / tableCurrentWidthOf dom t.columnWidths.length)).length
        = t.columnWidths.length := List.length_map _ _
    have hbound := sum_map_jsToFixed2_bound
      (t.columnWidths.map (fun w => w / tableCurrentWidthOf dom t.columnWidths.length))
    rw [hrsum, hrlen] at hbound
    rw [h1]
    have hfact : ((t.columnWidths.map
          (fun w => w / tableCurrentWidthOf dom t.columnWidths.length)).map
            jsToFixed2).sum * containerWidthOf dom - containerWidthOf dom
        = (((t.columnWidths.map
            (fun w => w / tableCurrentWidthOf dom t.columnWidths.length)).map
              jsToFixed2).sum - 1) * containerWidthOf dom := by
      ring
    rw [hfact, abs_mul, abs_of_nonneg hcw]
    calc |((t.columnWidths.map
          (fun w => w / tableCurrentWidthOf dom t.columnWidths.length)).map
            jsToFixed2).sum - 1| * containerWidthOf dom
        ≤ (t.columnWidths.length : ℚ) / 200 * containerWidthOf dom :=
          mul_le_mul_of_nonneg_right hbound hcw
      _ = (t.columnWidths.length : ℚ) * containerWidthOf dom / 200 := by ring

/-- Witness for the amended C3 at a concrete editor and DOM state. -/
theorem claim_C3_amended_witness :
    exec sampleAutoEditor3 sampleDom600
      = some ⟨"100%", some (specFullWidthNewWidths ([100, 100, 100] : List ℚ)
          (tableCurrentWidthOf sampleDom600 ([100, 100, 100] : List ℚ).length)
          (containerWidthOf sampleDom600))⟩
    ∧ |(specFullWidthNewWidths ([100, 100, 100] : List ℚ)
          (tableCurrentWidthOf sampleDom600 ([100, 100, 100] : List ℚ).length)
          (containerWidthOf sampleDom600)).sum - containerWidthOf sampleDom600|
        ≤ (([100, 100, 100] : List ℚ).length : ℚ) * containerWidthOf sampleDom600 / 200 :=
  claim_C3_amended sampleAutoEditor3 sampleDom600
    ⟨"auto", [100, 100, 100], false, -1⟩ rfl (by decide) (by decide) rfl rfl
    (by decide)
    (by norm_num [tableCurrentWidthOf, containerWidthOf, sampleDom600, max_def])
    (by norm_num [containerWidthOf, sampleDom600])

/-- Witness for C6 at a concrete full-width editor state. -/
theorem claim_C6_witness :
    exec sampleFullWidthEditor sampleDomNoContainer = some ⟨"auto", none⟩
    ∧ (applyProps ⟨"100%", [100], false, 0⟩ ⟨"auto", none⟩).columnWidths
        = ([100] : List ℚ) := by
  have h := claim_C6_deactivation_frame sampleFullWidthEditor sampleDomNoContainer
    (by decide) (by decide)
  exact ⟨h.1, (h.2 ⟨"100%", [100], false, 0⟩).1⟩

theorem numberToFixed_jsFloor2_eq_self (x : ℚ) (h : isCent x) :
    numberToFixed (jsFloor2 x) = x := by
  rw [jsFloor2_eq_self x h]
  exact jsToFixed2_eq_self x h

/-- C1 counterexample: in full-width mode with a single column, dragging
the border to 200 sets the column to 200 with no adjacent column to
compensate, so the total width changes from 100 to 200. -/
theorem claim_C1_counterexample :
    isFullWidthActive sampleFullWidthEditor = true
    ∧ (calculateAdjacentWidthsByBorderPosition [100] 0 200
        (getCumulativeWidths [100]) sampleFullWidthEditor).sum
      ≠ ([100] : List ℚ).sum := by
  constructor
  · decide
  · have hadj : resizeAdjustedWidth 0 200 (getCumulativeWidths [100])
        sampleFullWidthEditor = 200 := by
      norm_num [resizeAdjustedWidth, resizeLeftBoundary, minColumnWidthOf,
        sampleFullWidthEditor, max_def]
    have hwc : resizeWidthChange [100] 0 200 (getCumulativeWidths [100])
        sampleFullWidthEditor = 100 := by
      norm_num [resizeWidthChange, hadj, List.getD]
    rw [byBorderPosition_eq, if_neg (by decide)]
    dsimp only
    simp only [Int.toNat_zero]
    have hfw : isFullWidthActive sampleFullWidthEditor = true := by decide
    simp only [hfw, Bool.true_eq_false, if_false, hwc, hadj]
    rw [if_neg (by norm_num), if_pos (by norm_num), if_neg (by norm_num),
      if_neg (by norm_num)]
    rw [numberToFixed_jsFloor2_eq_self 200 ⟨20000, by norm_num⟩]
    norm_num


/-- C1 amended: the full-width drag recompute preserves the total column
width provided an adjacent column exists (at least two columns), the
widths and the mouse position are exact multiples of 1/100 (so the
two-decimal truncation/rounding steps are exact), the width change is at
least 0.1 in magnitude (otherwise no compensation is attempted), and — for
a growing column — the compensated adjacent column is not clamped at the
minimum width. -/
theorem claim_C1_amended (columnWidths : List ℚ) (resizingIndex : ℤ)
    (mousePositionInTable : ℚ) (editor : IDomEditor)
    (hf : isFullWidthActive editor = true)
    (h0 : 0 ≤ resizingIndex) (hn : resizingIndex < (columnWidths.length : ℤ))
    (h2 : 2 ≤ columnWidths.length)
    (hcent : ∀ w ∈ columnWidths, isCent w)
    (hm : isCent mousePositionInTable)
    (hbig : ¬ |resizeWidthChange columnWidths resizingIndex.toNat
        mousePositionInTable (getCumulativeWidths columnWidths) editor| < 1 / 10)
    (hclamp : 0 < resizeWidthChange columnWidths resizingIndex.toNat
          mousePositionInTable (getCumulativeWidths columnWidths) editor →
        ((minColumnWidthOf editor : ℤ) : ℚ)
          ≤ columnWidths.getD
              (adjacentIndex columnWidths.length resizingIndex.toNat) 0
            - resizeWidthChange columnWidths resizingIndex.toNat
                mousePositionInTable (getCumulativeWidths columnWidths) editor) :
    (calculateAdjacentWidthsByBorderPosition columnWidths resizingIndex
        mousePositionInTable (getCumulativeWidths columnWidths) editor).sum
      = columnWidths.sum := by
  have hguard : ¬(resizingIndex < 0 ∨ (columnWidths.length : ℤ) ≤ resizingIndex) := by
    omega
  have hlen : resizingIndex.toNat < columnWidths.length := by omega
  have hlb : isCent (resizeLeftBoundary (getCumulativeWidths columnWidths)
      resizingIndex.toNat) := by
    unfold resizeLeftBoundary
    split_ifs
    · exact isCent_zero
    · exact isCent_getD_zero (isCent_getCumulativeWidths hcent) _
  have hadjcent : isCent (resizeAdjustedWidth resizingIndex.toNat
      mousePositionInTable (getCumulativeWidths columnWidths) editor) := by
    unfold resizeAdjustedWidth
    exact isCent_max (isCent_intCast _) (isCent_sub hm hlb)
  have hci : isCent (columnWidths.getD resizingIndex.toNat 0) :=
    isCent_getD_zero hcent _
  have hwccent : isCent (resizeWidthChange columnWidths resizingIndex.toNat
      mousePositionInTable (getCumulativeWidths columnWidths) editor) :=
    isCent_sub hadjcent hci
  have hv1 : numberToFixed (jsFloor2 (resizeAdjustedWidth resizingIndex.toNat
      mousePositionInTable (getCumulativeWidths columnWidths) editor))
      = resizeAdjustedWidth resizingIndex.toNat mousePositionInTable
          (getCumulativeWidths columnWidths) editor :=
    numberToFixed_jsFloor2_eq_self _ hadjcent
  rw [byBorderPosition_eq, if_neg hguard]
  dsimp only
  simp only [hf, Bool.true_eq_false, if_false]
  rw [if_neg hbig]
  by_cases hpos : 0 < resizeWidthChange columnWidths resizingIndex.toNat
      mousePositionInTable (getCumulativeWidths columnWidths) editor
  · rw [if_pos hpos]
    have hcl := hclamp hpos
    by_cases hr : resizingIndex.toNat + 1 < columnWidths.length
    · rw [if_pos hr]
      rw [show adjacentIndex columnWidths.length resizingIndex.toNat
          = resizingIndex.toNat + 1 by simp [adjacentIndex, hr]] at hcl
      rw [hv1, max_eq_right hcl,
        numberToFixed_jsFloor2_eq_self _
          (isCent_sub (isCent_getD_zero hcent _) hwccent)]
      rw [sum_set_getD _ _ _ (by rw [List.length_set]; exact hr),
        getD_set_ne _ _ _ _ (by omega), sum_set_getD _ _ _ hlen]
      unfold resizeWidthChange
      ring
    · rw [if_neg hr, if_pos (show 0 < resizingIndex.toNat by omega)]
      rw [show adjacentIndex columnWidths.length resizingIndex.toNat
          = resizingIndex.toNat - 1 by simp [adjacentIndex, hr]] at hcl
      rw [hv1, max_eq_right hcl,
        numberToFixed_jsFloor2_eq_self _
          (isCent_sub (isCent_getD_zero hcent _) hwccent)]
      rw [sum_set_getD _ _ _ (by rw [List.length_set]; omega),
        getD_set_ne _ _ _ _ (by omega), sum_set_getD _ _ _ hlen]
      unfold resizeWidthChange
      ring
  · rw [if_neg hpos]
    by_cases hr : resizingIndex.toNat + 1 < columnWidths.length
    · rw [if_pos hr]
      rw [hv1,
        numberToFixed_jsFloor2_eq_self _
          (isCent_sub (isCent_getD_zero hcent _) hwccent)]
      rw [sum_set_getD _ _ _ (by rw [List.length_set]; exact hr),
        getD_set_ne _ _ _ _ (by omega), sum_set_getD _ _ _ hlen]
      unfold resizeWidthChange
      ring
    · rw [if_neg hr, if_pos (show 0 < resizingIndex.toNat by omega)]
      rw [hv1,
        numberToFixed_jsFloor2_eq_self _
          (isCent_sub (isCent_getD_zero hcent _) hwccent)]
      rw [sum_set_getD _ _ _ (by rw [List.length_set]; omega),
        getD_set_ne _ _ _ _ (by omega), sum_set_getD _ _ _ hlen]
      unfold resizeWidthChange
      ring


/-- Witness for the amended C1 at a concrete input. -/
theorem claim_C1_amended_witness :
    (calculateAdjacentWidthsByBorderPosition [100, 100] 0 130
        (getCumulativeWidths [100, 100]) sampleFullWidthEditor2).sum
      = ([100, 100] : List ℚ).sum :=
  claim_C1_amended [100, 100] 0 130 sampleFullWidthEditor2
    (by decide) (by decide) (by decide) (by decide)
    (by
      intro w hw
      simp only [List.mem_cons, List.not_mem_nil, or_false] at hw
      rcases hw with h | h <;> rw [h] <;> exact ⟨10000, by norm_num⟩)
    ⟨13000, by norm_num⟩
    (by
      norm_num [resizeWidthChange, resizeAdjustedWidth, resizeLeftBoundary,
        getCumulativeWidths, cumulativeFrom, minColumnWidthOf,
        sampleFullWidthEditor2, max_def, List.getD, Int.toNat_zero])
    (by
      intro h
      norm_num [resizeWidthChange, resizeAdjustedWidth, resizeLeftBoundary,
        getCumulativeWidths, cumulativeFrom, minColumnWidthOf, adjacentIndex,
        sampleFullWidthEditor2, max_def, List.getD, Int.toNat_zero])

end TableResize
